import Mathlib

/-!
Verification of the shipment-dashboard analysis logic of `app.py`.

The Python program is a single-page dashboard over an uploaded table of
shipment records.  The claims concern its pure analysis core:

* `safe_datetime_convert` — best-effort date coercion with format fallback;
* `enhanced_delivery_performance` — on-time delivery rate at day granularity;
* `smart_column_detector` / `find_best_match` — keyword-based column inference;
* `enhanced_city_extraction` — Taiwan region extraction from address text;
* `enhanced_shipment_analysis` — per-type copper weight aggregation (kg → ton);
* `enhanced_loading_analysis` — status filter, trip codes, per-trip summaries.

Each Python function is embedded shallowly: a pandas Series becomes a
`List`, a cell that failed coercion becomes `none`, a `pd.Timestamp`
becomes a day number paired with a time-of-day, and boolean row masks
become `Bool`-valued row predicates.
-/

namespace TMSApp

/-- A parsed `pd.Timestamp`: a calendar day (as a day number) together with
the time elapsed since that day's midnight.  `Timestamp.normalize` in pandas
(`Series.dt.normalize()`) keeps the day and zeroes the time of day. -/
structure PDTimestamp where
  day : Int
  tod : Nat
  deriving DecidableEq, Repr

/-- Source: `Series.dt.normalize()`: truncate the timestamp to midnight. -/
def normalizeTs (t : PDTimestamp) : PDTimestamp := ⟨t.day, 0⟩

/-- Timestamp comparison `a <= b`, lexicographic on (day, time-of-day),
as pandas compares `Timestamp`s. -/
def tsLeB (a b : PDTimestamp) : Bool :=
  decide (a.day < b.day) || (decide (a.day = b.day) && decide (a.tod ≤ b.tod))

/-- Timestamp comparison `a < b`. -/
def tsLtB (a b : PDTimestamp) : Bool :=
  decide (a.day < b.day) || (decide (a.day = b.day) && decide (a.tod < b.tod))

/-- Elementwise `<=` on possibly-missing timestamps: comparing `NaT` with
anything yields `False` in pandas. -/
def optLeB : Option PDTimestamp → Option PDTimestamp → Bool
  | some a, some b => tsLeB a b
  | _, _ => false

/-- Elementwise `<` on possibly-missing timestamps (`NaT` compares `False`). -/
def optLtB : Option PDTimestamp → Option PDTimestamp → Bool
  | some a, some b => tsLtB a b
  | _, _ => false

/-- One row of the table as seen by `enhanced_delivery_performance`:
the two date cells after `safe_datetime_convert` (a cell that failed to
parse is `none`, mirroring `NaT`), and this row's entry of the
`exclude_swi_mask` filter passed in by the caller. -/
structure DeliveryRow where
  due : Option PDTimestamp
  sign : Option PDTimestamp
  excludeSwi : Bool
  deriving DecidableEq, Repr

/-- Source: `due_day = safe_datetime_convert(df[due_date_col]).dt.normalize()`,
for one row. -/
def due_day (r : DeliveryRow) : Option PDTimestamp := r.due.map normalizeTs

/-- Source: `sign_day = safe_datetime_convert(df[sign_date_col]).dt.normalize()`,
for one row. -/
def sign_day (r : DeliveryRow) : Option PDTimestamp := r.sign.map normalizeTs

/-- Source: `valid_mask = due_day.notna() & sign_day.notna() & exclude_swi_mask`. -/
def valid_mask (r : DeliveryRow) : Bool :=
  (due_day r).isSome && (sign_day r).isSome && r.excludeSwi

/-- Source: `on_time_mask = (sign_day <= due_day) & valid_mask`. -/
def on_time_mask (r : DeliveryRow) : Bool :=
  optLeB (sign_day r) (due_day r) && valid_mask r

/-- Source: `late_mask = valid_mask & (sign_day > due_day)`. -/
def late_mask (r : DeliveryRow) : Bool :=
  valid_mask r && optLtB (due_day r) (sign_day r)

/-- Source: `total_valid = int(valid_mask.sum())`. -/
def total_valid (rows : List DeliveryRow) : Nat :=
  (rows.filter valid_mask).length

/-- Source: `on_time_count = int(on_time_mask.sum())`. -/
def on_time_count (rows : List DeliveryRow) : Nat :=
  (rows.filter on_time_mask).length

/-- Source: `late_count = int(late_mask.sum())`. -/
def late_count (rows : List DeliveryRow) : Nat :=
  (rows.filter late_mask).length

/-- Source: `delivery_rate = on_time_count / total_valid * 100` (the code reaches
this line only when `total_valid > 0`). -/
def delivery_rate (rows : List DeliveryRow) : ℚ :=
  (on_time_count rows : ℚ) / (total_valid rows : ℚ) * 100

/-- Spec-side on-time predicate, from the glossary: a valid record whose
signed (customer sign-off) calendar day is at most the due (specified
arrival) calendar day. -/
def specOnTime (r : DeliveryRow) : Bool :=
  valid_mask r &&
    (match r.sign, r.due with
     | some s, some d => decide (s.day ≤ d.day)
     | _, _ => false)

theorem normalizeTs_le_iff (a b : PDTimestamp) :
    tsLeB (normalizeTs a) (normalizeTs b) = decide (a.day ≤ b.day) := by
  simp only [normalizeTs, tsLeB]
  by_cases h : a.day < b.day
  · simp [h, le_of_lt h]
  · by_cases h2 : a.day = b.day
    · simp [h, h2]
    · simp [h, h2]
      omega

theorem on_time_mask_eq_specOnTime (r : DeliveryRow) :
    on_time_mask r = specOnTime r := by
  cases hs : r.sign with
  | none =>
      simp [on_time_mask, specOnTime, sign_day, hs, optLeB, valid_mask]
  | some s =>
      cases hd : r.due with
      | none =>
          simp [on_time_mask, specOnTime, sign_day, due_day, hs, hd, optLeB, valid_mask]
      | some d =>
          simp only [on_time_mask, specOnTime, sign_day, due_day, hs, hd,
            Option.map_some', optLeB, normalizeTs_le_iff]
          rw [Bool.and_comm]

theorem on_time_count_eq_spec (rows : List DeliveryRow) :
    on_time_count rows = (rows.filter specOnTime).length := by
  unfold on_time_count
  congr 1
  apply List.filter_congr
  intro r _
  exact on_time_mask_eq_specOnTime r

/-- C1: the on-time rate equals the fraction (as a percentage) of valid
records whose signed calendar day is at most the due calendar day, and a
valid record whose signed day equals its due day is classified on-time. -/
theorem delivery_rate_is_spec_fraction (rows : List DeliveryRow)
    (_h : 0 < total_valid rows) :
    delivery_rate rows =
      100 * ((rows.filter specOnTime).length : ℚ) / (total_valid rows : ℚ) ∧
    ∀ r s d, valid_mask r = true → r.sign = some s → r.due = some d →
      s.day = d.day → on_time_mask r = true := by
  constructor
  · rw [delivery_rate, on_time_count_eq_spec]
    ring
  · intro r s d hv hs hd hday
    rw [on_time_mask_eq_specOnTime]
    simp [specOnTime, hv, hs, hd, hday]

/-- Witness for `delivery_rate_is_spec_fraction` at a concrete one-row
table whose signed day equals its due day (later in the day). -/
theorem delivery_rate_is_spec_fraction_witness :
    delivery_rate [⟨some ⟨5, 0⟩, some ⟨5, 3600⟩, true⟩] =
      100 * (([(⟨some ⟨5, 0⟩, some ⟨5, 3600⟩, true⟩ : DeliveryRow)].filter specOnTime).length : ℚ) /
        (total_valid [⟨some ⟨5, 0⟩, some ⟨5, 3600⟩, true⟩] : ℚ) :=
  (delivery_rate_is_spec_fraction [⟨some ⟨5, 0⟩, some ⟨5, 3600⟩, true⟩] (by decide)).1

/-- C2: on-time/late classification is at calendar-day granularity — the
time-of-day components of both parsed dates never influence the
classification, because both are truncated to midnight before comparison. -/
theorem classification_ignores_time_of_day
    (d1 d2 : Int) (t1 t2 t1' t2' : Nat) (m : Bool) :
    on_time_mask ⟨some ⟨d1, t1⟩, some ⟨d2, t2⟩, m⟩ =
      on_time_mask ⟨some ⟨d1, t1'⟩, some ⟨d2, t2'⟩, m⟩ ∧
    late_mask ⟨some ⟨d1, t1⟩, some ⟨d2, t2⟩, m⟩ =
      late_mask ⟨some ⟨d1, t1'⟩, some ⟨d2, t2'⟩, m⟩ ∧
    (normalizeTs ⟨d1, t1⟩).tod = 0 ∧ (normalizeTs ⟨d2, t2⟩).tod = 0 := by
  refine ⟨?_, ?_, rfl, rfl⟩
  · simp [on_time_mask, sign_day, due_day, optLeB, normalizeTs, valid_mask]
  · simp [late_mask, sign_day, due_day, optLtB, normalizeTs, valid_mask, tsLtB]

/-- C3: a record is valid only when both dates parsed; a record where
either date failed to parse is classified neither valid nor on-time nor
late, and contributes to neither the numerator (`on_time_count`) nor the
denominator (`total_valid`) of the rate. -/
theorem invalid_dates_excluded (r : DeliveryRow) (rows : List DeliveryRow) :
    (valid_mask r = true → r.due.isSome = true ∧ r.sign.isSome = true) ∧
    (r.due = none ∨ r.sign = none →
      valid_mask r = false ∧ on_time_mask r = false ∧ late_mask r = false ∧
      total_valid (r :: rows) = total_valid rows ∧
      on_time_count (r :: rows) = on_time_count rows) := by
  constructor
  · intro hv
    simp only [valid_mask, Bool.and_eq_true] at hv
    rcases hv with ⟨⟨h1, h2⟩, _⟩
    constructor
    · cases hdue : r.due <;> simp [due_day, hdue] at h1 ⊢
    · cases hsign : r.sign <;> simp [sign_day, hsign] at h2 ⊢
  · intro hnone
    have hv : valid_mask r = false := by
      rcases hnone with h | h <;>
        simp [valid_mask, due_day, sign_day, h]
    refine ⟨hv, ?_, ?_, ?_, ?_⟩
    · simp [on_time_mask, hv]
    · simp [late_mask, hv]
    · show (List.filter valid_mask (r :: rows)).length = _
      rw [List.filter_cons]
      simp [hv, total_valid]
    · show (List.filter on_time_mask (r :: rows)).length = _
      rw [List.filter_cons]
      simp [on_time_mask, hv, on_time_count]

/-- Witness for `invalid_dates_excluded` at a record whose due date failed
to parse. -/
theorem invalid_dates_excluded_witness :
    valid_mask ⟨none, some ⟨7, 0⟩, true⟩ = false ∧
    on_time_mask ⟨none, some ⟨7, 0⟩, true⟩ = false ∧
    late_mask ⟨none, some ⟨7, 0⟩, true⟩ = false ∧
    total_valid [⟨none, some ⟨7, 0⟩, true⟩] = total_valid [] ∧
    on_time_count [⟨none, some ⟨7, 0⟩, true⟩] = on_time_count [] :=
  (invalid_dates_excluded ⟨none, some ⟨7, 0⟩, true⟩ []).2 (Or.inl rfl)

/-! ## `safe_datetime_convert` (C9)

The Python function first coerces the whole series with the default
`pd.to_datetime(series, errors="coerce")`.  Only when more than half of
the results are missing does it iterate over a list of explicit formats,
adopting the first format that yields strictly fewer missing entries and
stopping there (`break`).  We embed it generically over the cell type and
the parsing functions: `parseDefault` is the default coercion and
`formats` the list of per-format coercions. -/

/-- Number of missing (`NaT`) entries: `result.isna().sum()`. -/
def countNone {β : Type} (l : List (Option β)) : Nat :=
  (l.filter Option.isNone).length

/-- The `for fmt in formats:` loop: try each format in order; adopt the
first whose result has strictly fewer missing entries than the current
result, then stop (`break`). -/
def tryFormats {α β : Type} (series : List α) (result : List (Option β)) :
    List (α → Option β) → List (Option β)
  | [] => result
  | fmt :: rest =>
      if countNone (series.map fmt) < countNone result then series.map fmt
      else tryFormats series result rest

/-- Source: `safe_datetime_convert`: default coercion, then the format-fallback
loop when the failure rate exceeds one half (on an empty series the input
is returned unchanged, which coincides with the default coercion of an
empty series). -/
def safe_datetime_convert {α β : Type} (parseDefault : α → Option β)
    (formats : List (α → Option β)) (series : List α) : List (Option β) :=
  if series.isEmpty then series.map parseDefault
  else if series.length < 2 * countNone (series.map parseDefault) then
    tryFormats series (series.map parseDefault) formats
  else series.map parseDefault

theorem countNone_tryFormats_le {α β : Type} (series : List α)
    (result : List (Option β)) (formats : List (α → Option β)) :
    countNone (tryFormats series result formats) ≤ countNone result := by
  induction formats with
  | nil => exact Nat.le_refl _
  | cons fmt rest ih =>
      unfold tryFormats
      by_cases h : countNone (series.map fmt) < countNone result
      · rw [if_pos h]
        exact Nat.le_of_lt h
      · rw [if_neg h]
        exact ih

theorem tryFormats_eq_or_lt {α β : Type} (series : List α)
    (result : List (Option β)) (formats : List (α → Option β)) :
    tryFormats series result formats = result ∨
      countNone (tryFormats series result formats) < countNone result := by
  induction formats with
  | nil => exact Or.inl rfl
  | cons fmt rest ih =>
      unfold tryFormats
      by_cases h : countNone (series.map fmt) < countNone result
      · rw [if_pos h]
        exact Or.inr h
      · rw [if_neg h]
        exact ih

/-- C9: the conversion never has more missing entries than the default
coercion; when at most half of the default coercion fails, the alternate
formats are not attempted and the default result is returned; and the
result either is the default result or has strictly fewer missing
entries. -/
theorem safe_datetime_convert_never_worse {α β : Type}
    (parseDefault : α → Option β) (formats : List (α → Option β))
    (series : List α) :
    countNone (safe_datetime_convert parseDefault formats series) ≤
      countNone (series.map parseDefault) ∧
    (2 * countNone (series.map parseDefault) ≤ series.length →
      safe_datetime_convert parseDefault formats series =
        series.map parseDefault) ∧
    (safe_datetime_convert parseDefault formats series = series.map parseDefault ∨
      countNone (safe_datetime_convert parseDefault formats series) <
        countNone (series.map parseDefault)) := by
  unfold safe_datetime_convert
  by_cases he : series.isEmpty = true
  · rw [if_pos he]
    exact ⟨Nat.le_refl _, fun _ => rfl, Or.inl rfl⟩
  · rw [if_neg he]
    by_cases hr : series.length < 2 * countNone (series.map parseDefault)
    · rw [if_pos hr]
      refine ⟨countNone_tryFormats_le _ _ _, ?_, tryFormats_eq_or_lt _ _ _⟩
      intro hle
      omega
    · rw [if_neg hr]
      exact ⟨Nat.le_refl _, fun _ => rfl, Or.inl rfl⟩

/-- Witness for `safe_datetime_convert_never_worse` with concrete parsers
over natural-number cells: a default parser that fails on odd cells, and a
fallback format that always succeeds. -/
theorem safe_datetime_convert_never_worse_witness :
    countNone (safe_datetime_convert
        (fun n : Nat => if n % 2 = 0 then some n else none)
        [fun n : Nat => some n] [1, 3, 2]) ≤
      countNone ([1, 3, 2].map (fun n : Nat => if n % 2 = 0 then some n else none)) ∧
    safe_datetime_convert
        (fun n : Nat => if n % 2 = 0 then some n else none)
        [fun n : Nat => some n] [2, 4] =
      [2, 4].map (fun n : Nat => if n % 2 = 0 then some n else none) :=
  ⟨(safe_datetime_convert_never_worse
      (fun n : Nat => if n % 2 = 0 then some n else none)
      [fun n : Nat => some n] [1, 3, 2]).1,
   (safe_datetime_convert_never_worse
      (fun n : Nat => if n % 2 = 0 then some n else none)
      [fun n : Nat => some n] [2, 4]).2.1 (by decide)⟩

/-! ## Column inference: `find_best_match` / `smart_column_detector` (C4, C5) -/

/-- Case-insensitive substring test mirroring Python's
`kw.lower() in str(col).lower()`: lower both strings and look for the
keyword's character list as a contiguous infix of the column name's. -/
def substrAux (needle : List Char) : List Char → Bool
  | [] => needle.isEmpty
  | c :: rest => needle.isPrefixOf (c :: rest) || substrAux needle rest

/-- Lowercase a character list (the keywords only use ASCII letters, so
per-character lowering matches Python's `str.lower()` on them). -/
def lowerChars (l : List Char) : List Char := l.map Char.toLower

/-- Source: `kw.lower() in str(col).lower()`. -/
def containsCI (col kw : String) : Bool :=
  substrAux (lowerChars kw.toList) (lowerChars col.toList)

/-- Case-sensitive substring test, Python's `needle in hay` on strings. -/
def containsStr (hay needle : String) : Bool :=
  substrAux needle.toList hay.toList

/-- The keyword loop shared by both phases of `find_best_match`:
for each keyword in order, return the first column of `df_cols` whose
name contains it case-insensitively. -/
def searchKeywords (df_cols : List String) : List String → Option String
  | [] => none
  | kw :: rest =>
      match df_cols.find? (fun col => containsCI col kw) with
      | some col => some col
      | none => searchKeywords df_cols rest

/-- Source: `find_best_match(keywords, priority_keywords)`: search the priority
keywords first, then the general keyword list. -/
def find_best_match (df_cols keywords priority_keywords : List String) :
    Option String :=
  match searchKeywords df_cols priority_keywords with
  | some col => some col
  | none => searchKeywords df_cols keywords

/-- The logical roles of `smart_column_detector`'s column mapping. -/
inductive Role where
  | ship_type | due_date | sign_date | cust_id | cust_name | address
  | copper_ton | qty | ship_no | do_no | item_desc | lot_no
  | fg_net_ton | fg_gross_ton | status
  deriving DecidableEq, Repr

/-- The general keyword list passed for each role. -/
def roleKeywords : Role → List String
  | .ship_type => ["出貨申請類型", "出貨類型", "配送類型", "類型", "申請類型"]
  | .due_date => ["指定到貨日期", "到貨日期", "指定到貨", "到貨日", "預計到貨"]
  | .sign_date => ["客戶簽收日期", "簽收日期", "簽收日", "簽收時間"]
  | .cust_id => ["客戶編號", "客戶代號", "客編", "客戶id"]
  | .cust_name => ["客戶名稱", "客名", "客戶", "客戶簡稱"]
  | .address => ["地址", "收貨地址", "送貨地址", "交貨地址", "配送地址"]
  | .copper_ton => ["銅重量(噸)", "銅重量(噸數)", "銅噸", "銅重量", "銅重量（噸）"]
  | .qty => ["出貨數量", "數量", "出貨量", "出庫數量"]
  | .ship_no => ["出庫單號", "出庫單", "出庫編號", "出貨單號"]
  | .do_no => ["DO號", "DO", "出貨單號", "交貨單號", "do號"]
  | .item_desc => ["料號說明", "品名", "品名規格", "物料說明", "產品名稱"]
  | .lot_no => ["批次", "批號", "Lot", "lot", "批次號"]
  | .fg_net_ton => ["成品淨重(噸)", "成品淨量(噸)", "淨重(噸)", "淨重"]
  | .fg_gross_ton => ["成品毛重(噸)", "成品毛量(噸)", "毛重(噸)", "毛重"]
  | .status => ["通知單項次狀態", "項次狀態", "狀態", "單據狀態"]

/-- The priority keyword list passed for each role. -/
def rolePriority : Role → List String
  | .ship_type => ["出貨申請類型", "出貨類型"]
  | .due_date => ["指定到貨日期"]
  | .sign_date => ["客戶簽收日期"]
  | .cust_id => ["客戶編號"]
  | .cust_name => ["客戶名稱"]
  | .address => ["地址"]
  | .copper_ton => ["銅重量(噸)", "銅重量（噸）"]
  | .qty => ["出貨數量"]
  | .ship_no => ["出庫單號"]
  | .do_no => ["DO號"]
  | .item_desc => ["料號說明", "品名"]
  | .lot_no => ["批次", "批號"]
  | .fg_net_ton => ["成品淨重(噸)"]
  | .fg_gross_ton => ["成品毛重(噸)"]
  | .status => ["通知單項次狀態"]

/-- Source: `smart_column_detector`'s entry for one logical role. -/
def smart_column_detector (df_cols : List String) (role : Role) :
    Option String :=
  find_best_match df_cols (roleKeywords role) (rolePriority role)

theorem searchKeywords_cons (df_cols : List String) (kw : String)
    (rest : List String) :
    searchKeywords df_cols (kw :: rest) =
      match df_cols.find? (fun col => containsCI col kw) with
      | some col => some col
      | none => searchKeywords df_cols rest := rfl

theorem searchKeywords_append (df_cols l1 l2 : List String) :
    searchKeywords df_cols (l1 ++ l2) =
      match searchKeywords df_cols l1 with
      | some col => some col
      | none => searchKeywords df_cols l2 := by
  induction l1 with
  | nil => rfl
  | cons kw rest ih =>
      rw [List.cons_append, searchKeywords_cons, searchKeywords_cons]
      cases df_cols.find? (fun col => containsCI col kw) with
      | some col => rfl
      | none => exact ih

theorem searchKeywords_some (df_cols l : List String) (col : String)
    (h : searchKeywords df_cols l = some col) :
    col ∈ df_cols ∧ ∃ kw ∈ l, containsCI col kw = true := by
  induction l with
  | nil => exact absurd h (by simp [searchKeywords])
  | cons kw rest ih =>
      unfold searchKeywords at h
      cases hf : df_cols.find? (fun c => containsCI c kw) with
      | some c =>
          rw [hf] at h
          cases h
          refine ⟨List.mem_of_find?_eq_some hf, kw, List.mem_cons_self _ _, ?_⟩
          have hp := List.find?_some hf
          simpa using hp
      | none =>
          rw [hf] at h
          obtain ⟨hmem, kw', hkw', hc⟩ := ih h
          exact ⟨hmem, kw', List.mem_cons_of_mem _ hkw', hc⟩

/-- C4: for every header list and every logical role, the detector is the
single first-match scan over the role's priority keywords followed by its
fallback keywords, and any returned column is a header that contains the
matched keyword as a case-insensitive substring. -/
theorem smart_column_detector_first_match (df_cols : List String) (role : Role) :
    smart_column_detector df_cols role =
      searchKeywords df_cols (rolePriority role ++ roleKeywords role) ∧
    ∀ col, smart_column_detector df_cols role = some col →
      col ∈ df_cols ∧
      ∃ kw ∈ rolePriority role ++ roleKeywords role, containsCI col kw = true := by
  have heq : smart_column_detector df_cols role =
      searchKeywords df_cols (rolePriority role ++ roleKeywords role) := by
    rw [searchKeywords_append]
    rfl
  refine ⟨heq, fun col hcol => ?_⟩
  rw [heq] at hcol
  exact searchKeywords_some _ _ _ hcol

/-- Witness for `smart_column_detector_first_match`: on headers containing
both a priority and a fallback match for the due-date role, the detector
returns the priority column. -/
theorem smart_column_detector_first_match_witness :
    smart_column_detector ["到貨日期", "指定到貨日期"] Role.due_date =
      searchKeywords ["到貨日期", "指定到貨日期"]
        (rolePriority Role.due_date ++ roleKeywords Role.due_date) ∧
    "指定到貨日期" ∈ ["到貨日期", "指定到貨日期"] ∧
    ∃ kw ∈ rolePriority Role.due_date ++ roleKeywords Role.due_date,
      containsCI "指定到貨日期" kw = true :=
  ⟨(smart_column_detector_first_match ["到貨日期", "指定到貨日期"] Role.due_date).1,
   (smart_column_detector_first_match ["到貨日期", "指定到貨日期"] Role.due_date).2
     "指定到貨日期" (by decide)⟩

theorem searchKeywords_none (df_cols l : List String)
    (h : ∀ col ∈ df_cols, ∀ kw ∈ l, containsCI col kw = false) :
    searchKeywords df_cols l = none := by
  induction l with
  | nil => rfl
  | cons kw rest ih =>
      rw [searchKeywords_cons]
      have hf : df_cols.find? (fun col => containsCI col kw) = none := by
        rw [List.find?_eq_none]
        intro col hcol
        simp [h col hcol kw (List.mem_cons_self _ _)]
      rw [hf]
      exact ih fun col hcol kw' hkw' =>
        h col hcol kw' (List.mem_cons_of_mem _ hkw')

/-- Outcome of the guard at the top of `enhanced_shipment_analysis`:
`if not ship_type_col or ship_type_col not in df.columns:
st.error(...); return` — a missing or unknown column shows a warning and
skips the analysis. -/
inductive ShipmentGate where
  | missingColumnWarning
  | proceeds
  deriving DecidableEq, Repr

/-- The guard of `enhanced_shipment_analysis` (Python truthiness: `None`
and the empty string both fail the `not ship_type_col` test). -/
def enhanced_shipment_analysis_gate (df_cols : List String)
    (ship_type_col : Option String) : ShipmentGate :=
  match ship_type_col with
  | none => .missingColumnWarning
  | some c =>
      if c = "" || !(df_cols.contains c) then .missingColumnWarning
      else .proceeds

/-- C5: when no header contains any of a role's priority or fallback
keywords, the detector maps the role to `none` (it is a total function —
no error is possible), and the shipment analysis fed such a missing
column stops at its guard with a warning instead of proceeding. -/
theorem no_match_gives_none_and_skips (df_cols : List String) (role : Role)
    (h : ∀ col ∈ df_cols, ∀ kw ∈ rolePriority role ++ roleKeywords role,
      containsCI col kw = false) :
    smart_column_detector df_cols role = none ∧
    enhanced_shipment_analysis_gate df_cols
      (smart_column_detector df_cols role) = .missingColumnWarning := by
  have hnone : smart_column_detector df_cols role = none := by
    show find_best_match df_cols (roleKeywords role) (rolePriority role) = none
    have := searchKeywords_append df_cols (rolePriority role) (roleKeywords role)
    rw [searchKeywords_none df_cols _ h] at this
    unfold find_best_match
    rw [searchKeywords_none df_cols _ fun col hcol kw hkw =>
      h col hcol kw (List.mem_append_left _ hkw)]
    rw [searchKeywords_none df_cols _ fun col hcol kw hkw =>
      h col hcol kw (List.mem_append_right _ hkw)]
  refine ⟨hnone, ?_⟩
  rw [hnone]
  rfl

/-- Witness for `no_match_gives_none_and_skips` on headers that match no
ship-type keyword. -/
theorem no_match_gives_none_and_skips_witness :
    smart_column_detector ["abc", "def"] Role.ship_type = none ∧
    enhanced_shipment_analysis_gate ["abc", "def"]
      (smart_column_detector ["abc", "def"] Role.ship_type) =
        .missingColumnWarning :=
  no_match_gives_none_and_skips ["abc", "def"] Role.ship_type (by decide)

/-! ## `enhanced_city_extraction` (C6)

The Python function normalizes the address
(`str(address).strip().replace("臺", "台").replace("　", " ")`), then runs
two passes over the fixed list of 22 regions: a full-name substring pass,
and — when that fails — a fuzzy pass matching the region name with the
市/縣 suffix removed (when that base has at least two characters).  Both
replaced patterns are single characters, so the replacements are embedded
as character maps. -/

/-- The fixed `taiwan_cities` list (22 administrative regions). -/
def taiwan_cities : List String :=
  ["台北市", "新北市", "桃園市", "台中市", "台南市", "高雄市",
   "基隆市", "新竹市", "新竹縣", "苗栗縣", "彰化縣", "南投縣",
   "雲林縣", "嘉義市", "嘉義縣", "屏東縣", "宜蘭縣", "花蓮縣",
   "台東縣", "澎湖縣", "金門縣", "連江縣"]

/-- Python `str.strip()` whitespace test (the ASCII part). -/
def isStripChar (c : Char) : Bool :=
  c = ' ' || c = '\t' || c = '\n' || c = '\r'

/-- Python `str.strip()` on a character list. -/
def stripChars (l : List Char) : List Char :=
  ((l.dropWhile isStripChar).reverse.dropWhile isStripChar).reverse

/-- Single-character `str.replace`. -/
def charReplace (pat repl : Char) (l : List Char) : List Char :=
  l.map fun c => if c = pat then repl else c

/-- Source: `str(address).strip().replace("臺", "台").replace("　", " ")`. -/
def normalizeAddr (a : String) : List Char :=
  charReplace '　' ' ' (charReplace '臺' '台' (stripChars a.toList))

/-- First pass: `for city in taiwan_cities: if city in normalized_addr`. -/
def fullCityMatch (normalized_addr : List Char) : Option String :=
  taiwan_cities.find? fun city => substrAux city.toList normalized_addr

/-- Source: `city.replace("市", "").replace("縣", "")`. -/
def cityBase (city : String) : List Char :=
  city.toList.filter fun c => !(c = '市' || c = '縣')

/-- Second pass: `if city_base in normalized_addr and len(city_base) >= 2`. -/
def fuzzyCityMatch (normalized_addr : List Char) : Option String :=
  taiwan_cities.find? fun city =>
    substrAux (cityBase city) normalized_addr && decide (2 ≤ (cityBase city).length)

/-- Source: `enhanced_city_extraction` (`pd.isna(address)` becomes `none`, `not
address` catches the empty string). -/
def enhanced_city_extraction (address : Option String) : Option String :=
  match address with
  | none => none
  | some a =>
      if a = "" then none
      else
        match fullCityMatch (normalizeAddr a) with
        | some city => some city
        | none => fuzzyCityMatch (normalizeAddr a)

/-- The extraction exactly as the claim words it: normalize the alternate
character form (臺 → 台), then return the first region of the list that is
a substring of the address, or nothing when no region is. -/
def cityExtractionClaimed (address : Option String) : Option String :=
  match address with
  | none => none
  | some a => fullCityMatch (charReplace '臺' '台' a.toList)

/-- C6 counterexample: on the address `"台北101"` no region of the list is
a substring of the (normalized) address — so the claimed behaviour yields
nothing — yet the code's fuzzy second pass (match with the 市/縣 suffix
dropped) returns `台北市`. -/
theorem city_extraction_not_first_full_match :
    enhanced_city_extraction (some "台北101") = some "台北市" ∧
    cityExtractionClaimed (some "台北101") = none ∧
    (taiwan_cities.all fun city =>
      !(substrAux city.toList (normalizeAddr "台北101"))) = true := by
  refine ⟨by decide, by decide, by decide⟩

/-- C6 amended: after normalization (strip, 臺 → 台, full-width space →
space) the function returns the first region fully contained in the
address; when no region is fully contained it returns the first region
whose 市/縣-stripped base (of length ≥ 2) is contained; it returns nothing
exactly when the address is missing/empty or both passes fail. -/
theorem city_extraction_two_pass (a : String) (hne : a ≠ "") :
    (∀ city, enhanced_city_extraction (some a) = some city →
      city ∈ taiwan_cities ∧
        (substrAux city.toList (normalizeAddr a) = true ∨
         (substrAux (cityBase city) (normalizeAddr a) = true ∧
          2 ≤ (cityBase city).length))) ∧
    (fullCityMatch (normalizeAddr a) ≠ none →
      enhanced_city_extraction (some a) = fullCityMatch (normalizeAddr a)) ∧
    (enhanced_city_extraction (some a) = none ↔
      ∀ city ∈ taiwan_cities,
        substrAux city.toList (normalizeAddr a) = false ∧
        (substrAux (cityBase city) (normalizeAddr a) &&
          decide (2 ≤ (cityBase city).length)) = false) := by
  have hbody : enhanced_city_extraction (some a) =
      match fullCityMatch (normalizeAddr a) with
      | some city => some city
      | none => fuzzyCityMatch (normalizeAddr a) := by
    show (if a = "" then none else _) = _
    rw [if_neg hne]
  refine ⟨?_, ?_, ?_⟩
  · intro city hcity
    rw [hbody] at hcity
    cases hfull : fullCityMatch (normalizeAddr a) with
    | some c =>
        rw [hfull] at hcity
        cases hcity
        refine ⟨List.mem_of_find?_eq_some hfull, Or.inl ?_⟩
        have := List.find?_some hfull
        simpa using this
    | none =>
        rw [hfull] at hcity
        refine ⟨List.mem_of_find?_eq_some hcity, Or.inr ?_⟩
        have := List.find?_some hcity
        simpa using this
  · intro hfull
    rw [hbody]
    cases h : fullCityMatch (normalizeAddr a) with
    | some c => rfl
    | none => exact absurd h hfull
  · rw [hbody]
    cases hfull : fullCityMatch (normalizeAddr a) with
    | some c =>
        simp only [reduceCtorEq, false_iff]
        intro hall
        have hc := hall c (List.mem_of_find?_eq_some hfull)
        have hc1 := hc.1
        simp only [String.toList] at hc1
        have := List.find?_some hfull
        simp [hc1] at this
    | none =>
        have h1 := List.find?_eq_none.mp hfull
        constructor
        · intro hfuzzy city hcity
          have h2 := List.find?_eq_none.mp hfuzzy
          refine ⟨?_, ?_⟩
          · have := h1 city hcity
            simpa using this
          · have := h2 city hcity
            simpa using this
        · intro hall
          show fuzzyCityMatch (normalizeAddr a) = none
          unfold fuzzyCityMatch
          rw [List.find?_eq_none]
          intro city hcity
          simp [(hall city hcity).2]

/-- Witness for `city_extraction_two_pass`: a full-name match wins on a
concrete address. -/
theorem city_extraction_two_pass_witness :
    enhanced_city_extraction (some "高雄市前鎮區") =
      fullCityMatch (normalizeAddr "高雄市前鎮區") :=
  (city_extraction_two_pass "高雄市前鎮區" (by decide)).2.1 (by decide)

/-! ## `enhanced_loading_analysis` (C7, C10)

Rows carry the outbound order number (`出庫單號`, already rendered as a
string by `astype(str)`), the status cell (likewise a string), and this
row's entry of the caller-supplied `exclude_swi_mask`.  We model the
branch where a status column is present, so the base mask is
`exclude_swi_mask & (status.strip() == "完成")`. -/

structure LoadingRow where
  ship_no : String
  status : String
  excludeSwi : Bool
  deriving DecidableEq, Repr

/-- Source: `df[status_col].astype(str).str.strip() == "完成"` for one row. -/
def completed_mask (r : LoadingRow) : Bool :=
  stripChars r.status.toList == "完成".toList

/-- Source: `base_mask = exclude_swi_mask & completed_mask` (status column
present). -/
def base_mask (r : LoadingRow) : Bool :=
  r.excludeSwi && completed_mask r

/-- Source: `loading_df = df[base_mask]`. -/
def loading_rows (rows : List LoadingRow) : List LoadingRow :=
  rows.filter base_mask

/-- Source: `車次代碼 = loading_df[ship_no_col].astype(str).str[:13]`: the trip
code is the first 13 characters of the outbound order number. -/
def trip_code (r : LoadingRow) : List Char :=
  r.ship_no.toList.take 13

/-- The trip codes of all retained rows. -/
def all_trip_codes (rows : List LoadingRow) : List (List Char) :=
  (loading_rows rows).map trip_code

/-- Source: `Series.unique()`: deduplicate keeping first-occurrence order. -/
def uniqAux (seen : List (List Char)) : List (List Char) → List (List Char)
  | [] => []
  | a :: rest =>
      if a ∈ seen then uniqAux seen rest
      else a :: uniqAux (a :: seen) rest

/-- The per-trip summary loop
`for trip_code in loading_df["車次代碼"].unique():
    trip_data = loading_df[loading_df["車次代碼"] == trip_code]`:
each unique trip code paired with the rows of that trip. -/
def trip_groups (rows : List LoadingRow) :
    List (List Char × List LoadingRow) :=
  (uniqAux [] (all_trip_codes rows)).map fun c =>
    (c, (loading_rows rows).filter fun r => trip_code r == c)

theorem mem_uniqAux (l : List (List Char)) :
    ∀ seen a, a ∈ uniqAux seen l ↔ a ∈ l ∧ a ∉ seen := by
  induction l with
  | nil => intro seen a; simp [uniqAux]
  | cons b rest ih =>
      intro seen a
      unfold uniqAux
      by_cases hb : b ∈ seen
      · rw [if_pos hb, ih]
        constructor
        · exact fun ⟨h1, h2⟩ => ⟨List.mem_cons_of_mem _ h1, h2⟩
        · rintro ⟨h1, h2⟩
          rcases List.mem_cons.mp h1 with rfl | h1
          · exact absurd hb h2
          · exact ⟨h1, h2⟩
      · rw [if_neg hb]
        constructor
        · intro h
          rcases List.mem_cons.mp h with rfl | h
          · exact ⟨List.mem_cons_self _ _, hb⟩
          · obtain ⟨h1, h2⟩ := (ih _ _).mp h
            refine ⟨List.mem_cons_of_mem _ h1, fun hc => h2 ?_⟩
            exact List.mem_cons_of_mem _ hc
        · rintro ⟨h1, h2⟩
          rcases List.mem_cons.mp h1 with rfl | h1
          · exact List.mem_cons_self _ _
          · by_cases hab : a = b
            · subst hab; exact List.mem_cons_self _ _
            · refine List.mem_cons_of_mem _ ((ih _ _).mpr ⟨h1, ?_⟩)
              intro hc
              rcases List.mem_cons.mp hc with h | h
              · exact hab h
              · exact h2 h

/-- C7: for every retained record the trip code is the 13-character prefix
of the outbound order number, and two retained line items land in a common
per-trip summary group exactly when their order numbers share that
prefix. -/
theorem trip_grouping_by_first13 (rows : List LoadingRow)
    (r1 r2 : LoadingRow) (h1 : r1 ∈ loading_rows rows)
    (h2 : r2 ∈ loading_rows rows) :
    trip_code r1 = r1.ship_no.toList.take 13 ∧
    ((∃ g ∈ trip_groups rows, r1 ∈ g.2 ∧ r2 ∈ g.2) ↔
      r1.ship_no.toList.take 13 = r2.ship_no.toList.take 13) := by
  refine ⟨rfl, ?_, ?_⟩
  · rintro ⟨g, hg, hm1, hm2⟩
    obtain ⟨c, _, rfl⟩ := List.mem_map.mp hg
    have e1 : trip_code r1 = c := by
      have := (List.mem_filter.mp hm1).2
      simpa using this
    have e2 : trip_code r2 = c := by
      have := (List.mem_filter.mp hm2).2
      simpa using this
    show trip_code r1 = trip_code r2
    rw [e1, e2]
  · intro hpre
    refine ⟨(trip_code r1, (loading_rows rows).filter fun r => trip_code r == trip_code r1),
      ?_, ?_, ?_⟩
    · apply List.mem_map.mpr
      refine ⟨trip_code r1, ?_, rfl⟩
      rw [mem_uniqAux]
      exact ⟨List.mem_map.mpr ⟨r1, h1, rfl⟩, List.not_mem_nil _⟩
    · exact List.mem_filter.mpr ⟨h1, by simp⟩
    · refine List.mem_filter.mpr ⟨h2, ?_⟩
      have : trip_code r2 = trip_code r1 := hpre.symm
      simp [this]

/-- Witness for `trip_grouping_by_first13`: two retained rows whose order
numbers share their first 13 characters land in a common trip group. -/
theorem trip_grouping_by_first13_witness :
    ∃ g ∈ trip_groups
        [⟨"ABCDEFGHIJKLM01", "完成", true⟩, ⟨"ABCDEFGHIJKLM02", "完成", true⟩],
      (⟨"ABCDEFGHIJKLM01", "完成", true⟩ : LoadingRow) ∈ g.2 ∧
      (⟨"ABCDEFGHIJKLM02", "完成", true⟩ : LoadingRow) ∈ g.2 :=
  (trip_grouping_by_first13
      [⟨"ABCDEFGHIJKLM01", "完成", true⟩, ⟨"ABCDEFGHIJKLM02", "完成", true⟩]
      ⟨"ABCDEFGHIJKLM01", "完成", true⟩ ⟨"ABCDEFGHIJKLM02", "完成", true⟩
      (by decide) (by decide)).2.mpr (by decide)

/-- C10: with a status column present, every record retained by the
loading analysis — hence every member of every per-trip summary group —
has a status that, as a stripped string, equals `完成`; a record with any
other stripped status is excluded. -/
theorem loading_only_completed (rows : List LoadingRow) (r : LoadingRow) :
    (r ∈ loading_rows rows →
      stripChars r.status.toList = "完成".toList ∧ r.excludeSwi = true) ∧
    (∀ g ∈ trip_groups rows, ∀ r2 ∈ g.2,
      stripChars r2.status.toList = "完成".toList) ∧
    (stripChars r.status.toList ≠ "完成".toList → r ∉ loading_rows rows) := by
  have hmem : ∀ r' : LoadingRow, r' ∈ loading_rows rows →
      stripChars r'.status.toList = "完成".toList ∧ r'.excludeSwi = true := by
    intro r' hr'
    have hb := (List.mem_filter.mp hr').2
    simp only [base_mask, completed_mask, Bool.and_eq_true, beq_iff_eq] at hb
    exact ⟨hb.2, hb.1⟩
  refine ⟨hmem r, ?_, ?_⟩
  · intro g hg r2 hr2
    obtain ⟨c, _, rfl⟩ := List.mem_map.mp hg
    exact (hmem r2 (List.mem_filter.mp hr2).1).1
  · intro hne hr
    exact hne (hmem r hr).1

/-- Witness for `loading_only_completed`: a row whose status strips to
something other than `完成` is not retained. -/
theorem loading_only_completed_witness :
    (⟨"ABCDEFGHIJKLM01", "取消", true⟩ : LoadingRow) ∉
      loading_rows [⟨"ABCDEFGHIJKLM01", "取消", true⟩] :=
  (loading_only_completed [⟨"ABCDEFGHIJKLM01", "取消", true⟩]
      ⟨"ABCDEFGHIJKLM01", "取消", true⟩).2.2 (by decide)

/-! ## Copper weight conversion kg → ton (C8)

In `enhanced_shipment_analysis` the copper column is coerced with
`pd.to_numeric(..., errors="coerce")` (a non-numeric cell becomes `NaN`,
modelled as `none`), summed per shipment type (pandas sums skip `NaN`),
and the ton figure is the kg sum divided by 1000.  In
`enhanced_loading_analysis` each row's coerced value is divided by 1000
(`NaN / 1000` stays `NaN`). -/

structure ShipRow where
  ship_type : String
  copper : Option ℚ
  deriving DecidableEq, Repr

/-- The numeric copper cells (kg) of the rows of one shipment type:
`df_work.groupby(ship_type_col)` restricted to `_copper_numeric`, with
`NaN` entries skipped as pandas `sum` does. -/
def copper_kg_cells (t : String) (rows : List ShipRow) : List ℚ :=
  (rows.filter fun r => r.ship_type == t).filterMap fun r => r.copper

/-- Source: `銅重量(kg)合計` for one shipment type. -/
def copper_kg_sum (t : String) (rows : List ShipRow) : ℚ :=
  (copper_kg_cells t rows).sum

/-- Source: `銅重量(噸)合計 = 銅重量(kg)合計 / 1000`. -/
def copper_ton_sum (t : String) (rows : List ShipRow) : ℚ :=
  copper_kg_sum t rows / 1000

/-- Source: `_copper_ton_converted = _copper_ton_numeric / 1000.0` for one cell of
the loading analysis. -/
def loading_copper_ton (cell : Option ℚ) : Option ℚ :=
  cell.map fun w => w / 1000

theorem sum_div_thousand (l : List ℚ) :
    l.sum / 1000 = (l.map fun w => w / 1000).sum := by
  induction l with
  | nil => simp
  | cons x rest ih =>
      simp only [List.sum_cons, List.map_cons, add_div, ih]

/-- C8: the ton total of a shipment type is the sum of `w / 1000` over
that type's numeric cells; in the loading analysis a numeric cell `w`
converts to `w / 1000` and a non-numeric cell stays missing; and a
non-numeric cell contributes nothing to the kg (hence ton) sums. -/
theorem copper_ton_is_kg_div_1000 (t : String) (rows : List ShipRow)
    (w : ℚ) :
    copper_ton_sum t rows =
      ((copper_kg_cells t rows).map fun w => w / 1000).sum ∧
    loading_copper_ton (some w) = some (w / 1000) ∧
    loading_copper_ton none = none ∧
    copper_kg_sum t (⟨t, none⟩ :: rows) = copper_kg_sum t rows ∧
    copper_ton_sum t (⟨t, none⟩ :: rows) = copper_ton_sum t rows := by
  have hcells : copper_kg_cells t (⟨t, none⟩ :: rows) = copper_kg_cells t rows := by
    unfold copper_kg_cells
    rw [List.filter_cons]
    simp
  refine ⟨sum_div_thousand _, rfl, rfl, ?_, ?_⟩
  · unfold copper_kg_sum
    rw [hcells]
  · unfold copper_ton_sum copper_kg_sum
    rw [hcells]

end TMSApp
